import Mathlib

/-!
Shallow embedding of the benchmark report aggregation and publishing pipeline
of `github_rest_api` (files `actions/cargo/benchmark.py` and `actions/utils.py`),
together with theorems settling the specification claims about it.

Conventions of the embedding:
* Python floats are modelled as rationals; `float(s)` on a decimal literal is
  `parseDecimal?`, returning `none` where `float` raises `ValueError`.
* Python functions that can raise return `Option`/`Except`; `none` / `.error`
  models the raised exception.
* Filesystem paths are lists of path components; a directory tree is the
  finite set of paths in it.
* The ambient randomness of `random.sample` is modelled by an arbitrary
  `shuffle` function assumed to permute its input.
-/

/-- Whitespace characters stripped by Python `str.strip()` (ASCII subset). -/
def isPyWS (c : Char) : Bool :=
  c == ' ' || c == '\t' || c == '\n' || c == '\r' || c == '\x0b' || c == '\x0c'

/-- Decimal digit test. -/
def isPyDigit (c : Char) : Bool :=
  decide ('0' ≤ c) && decide (c ≤ '9')

/-- Python `str.strip(chars)`: drop characters satisfying `p` from both ends. -/
def pyStripList (p : Char → Bool) (cs : List Char) : List Char :=
  ((cs.dropWhile p).reverse.dropWhile p).reverse

/-- Python `str.strip()` on a character list. -/
def pyStripWS (cs : List Char) : List Char :=
  pyStripList isPyWS cs

/-- Python `str.strip("%")` on a character list. -/
def pyStripPercent (cs : List Char) : List Char :=
  pyStripList (fun c => c == '%') cs

/-- Value of a list of decimal digits, most significant first. -/
def digitsToNat (cs : List Char) : Nat :=
  cs.foldl (fun acc c => acc * 10 + (c.toNat - '0'.toNat)) 0

/-- Model of Python `float()` on plain decimal literals (optional sign,
integer part, optional fractional part): `none` models a `ValueError`.
Exotic literal forms (exponents, `inf`, `nan`, underscores) are outside the
inputs this pipeline handles and are mapped to `none`. -/
def parseUnsignedDecimal? (rest : List Char) : Option ℚ :=
  let ip := rest.takeWhile (fun c => c != '.')
  let tl := rest.dropWhile (fun c => c != '.')
  match tl with
  | [] =>
    if ip.all isPyDigit && !ip.isEmpty then
      some (mkRat (digitsToNat ip : Int) 1)
    else none
  | _ :: fp =>
    if ip.all isPyDigit && fp.all isPyDigit && (!ip.isEmpty || !fp.isEmpty) then
      some (mkRat ((digitsToNat ip * 10 ^ fp.length + digitsToNat fp : Nat) : Int) (10 ^ fp.length))
    else none

/-- Model of Python `float()` on plain decimal literals (optional sign,
integer part, optional fractional part): `none` models a `ValueError`. -/
def parseDecimal? (cs : List Char) : Option ℚ :=
  match cs with
  | '-' :: t => (parseUnsignedDecimal? t).map (fun q => -q)
  | '+' :: t => parseUnsignedDecimal? t
  | t => parseUnsignedDecimal? t

/-- Python `float(s)`: `float` itself ignores surrounding whitespace. -/
def parsePyFloat (s : String) : Option ℚ :=
  parseDecimal? (pyStripWS s.data)

/-- Embedding of `_reg_value` nested in `_gen_report_ci_markdown`:
`float(value.strip("%").strip())`; `none` models the `ValueError`. -/
def reg_value (s : String) : Option ℚ :=
  parseDecimal? (pyStripWS (pyStripPercent s.data))

/-- Python builtin `abs` on a rational (kept kernel-reducible). -/
def pyAbs (q : ℚ) : ℚ :=
  if q < 0 then -q else q

/-- Embedding of `_significance` nested in `_gen_report_ci_markdown`:
classify a (lower, middle, upper) percent triple as 0 (neutral),
-1 (improvement) or 1 (regression); `none` models a parse `ValueError`. -/
def significance (lower middle upper : String) : Option Int := do
  let lv ← reg_value lower
  let mv ← reg_value middle
  let uv ← reg_value upper
  pure (if pyAbs mv < 1 then 0 else if lv < 0 ∧ uv < 0 then -1 else if lv > 0 ∧ uv > 0 then 1 else 0)

/-- The color dictionary lookup in `_gen_report_ci_markdown`; `_significance`
only ever returns -1, 0 or 1, which this function covers totally. -/
def sig_color (s : Int) : String :=
  if s = 0 then "black" else if s = -1 then "green" else "red"

/-- Embedding of `_gen_report_ci_markdown`: the rendered interval span. -/
def gen_report_ci_markdown (ci : String × String × String) : Option String :=
  (significance ci.1 ci.2.1 ci.2.2).map (fun s =>
    "<span style=\"color:" ++ sig_color s ++ "\"> [" ++ ci.1 ++ ", <b>" ++
      ci.2.1 ++ "</b>, " ++ ci.2.2 ++ "] </span>")

/-- Substring test used below: does `pat` occur at the head of the list. -/
def startsWithL : List Char → List Char → Bool
  | [], _ => true
  | _ :: _, [] => false
  | p :: ps, c :: cs => p == c && startsWithL ps cs

/-- Python `pat in s` substring containment on character lists. -/
def containsSub (pat : List Char) : List Char → Bool
  | [] => pat.isEmpty
  | c :: cs => startsWithL pat (c :: cs) || containsSub pat cs

/-- The marker line scanned for by `_parse_metric_ci._find_start_line`. -/
def marker_line : String := "Change in Value:"

/-- Does a report line contain the marker text. -/
def line_contains_marker (line : String) : Bool :=
  containsSub marker_line.data line.data

/-- Embedding of `_find_start_line` nested in `_parse_metric_ci`. -/
def find_start_line (lines : List String) : Option Nat :=
  lines.findIdx? line_contains_marker

/-- Embedding of `_extract_value_from_line` nested in `_parse_metric_ci`:
take the text strictly between the first `>` and the next `<`, stripped;
a missing delimiter defaults the bound to "0". -/
def extract_value_from_line (line : String) : String :=
  match line.data.findIdx? (fun c => c == '>') with
  | none => "0"
  | some i =>
    let tail := line.data.drop (i + 1)
    match tail.findIdx? (fun c => c == '<') with
    | none => "0"
    | some j => String.mk (pyStripWS (tail.take j))

/-- Embedding of `_parse_metric_ci` on the list of lines read from the report
fragment: `none` models the `IndexError` raised when one of the three bound
lines `start+1 .. start+3` does not exist. -/
def parse_metric_ci (lines : List String) : Option (String × String × String) :=
  match find_start_line lines with
  | none => some ("0", "0", "0")
  | some start =>
    match lines[start + 1]?, lines[start + 2]?, lines[start + 3]? with
    | some l1, some l2, some l3 =>
      some (extract_value_from_line l1, extract_value_from_line l2, extract_value_from_line l3)
    | _, _, _ => none

/-- A parsed confidence interval paired with the path of its report
directory, as in the `cips` list of `_gen_report_links_markdown`. -/
abbrev CIP := (String × String × String) × String

/-- Numeric value of a CIP's middle bound under the normalization of
`_sort_cips._avg_perf_change` (remove every "%", strip, parse); `0` stands
in for an unparseable middle, a case `sort_cips` guards against. -/
def mid_val (cip : CIP) : ℚ :=
  (parsePyFloat (String.mk (cip.1.2.1.data.filter (fun c => c != '%')))).getD 0

/-- The comparison `sorted(cips, key=_avg_perf_change)` sorts by: the key is
the negated middle value, so `a` comes no later than `b` iff
`-mid a ≤ -mid b`, i.e. `mid b ≤ mid a`. -/
def cip_le (a b : CIP) : Prop := mid_val b ≤ mid_val a

instance : DecidableRel cip_le :=
  fun a b => inferInstanceAs (Decidable (mid_val b ≤ mid_val a))

instance : IsTotal CIP cip_le := ⟨fun _ _ => le_total _ _⟩

instance : IsTrans CIP cip_le := ⟨fun _ _ _ h1 h2 => le_trans h2 h1⟩

/-- Embedding of `_sort_cips`: Python `sorted` is a stable sort ascending by
the key, and raises (`none`) if some middle bound fails to parse as a float
after removing "%" and stripping. -/
def sort_cips (cips : List CIP) : Option (List CIP) :=
  if cips.all (fun c =>
      (parsePyFloat (String.mk (c.1.2.1.data.filter (fun d => d != '%')))).isSome) then
    some (List.insertionSort cip_le cips)
  else none

/-- Does a directory name match the glob pattern `[1-9]*` of
`_clean_bench_dirs`: first character is a digit 1-9, rest arbitrary. -/
def startsWithDigit19 (s : String) : Bool :=
  match s.data with
  | [] => false
  | c :: _ => decide ('1' ≤ c) && decide (c ≤ '9')

/-- Lexicographic comparison of character lists by code point: this is how
Python compares the strings of sibling `Path`s in `sorted`. -/
def lexLe : List Char → List Char → Bool
  | [], _ => true
  | _ :: _, [] => false
  | a :: as, b :: bs =>
    if a.toNat < b.toNat then true
    else if b.toNat < a.toNat then false
    else lexLe as bs

/-- The string order `sorted` uses on sibling paths. -/
def str_le (a b : String) : Prop := lexLe a.data b.data = true

instance : DecidableRel str_le :=
  fun a b => inferInstanceAs (Decidable (lexLe a.data b.data = true))

/-- Embedding of `_clean_bench_dirs` on the list of immediate subdirectory
names of the benchmark root: returns (kept directories in order, deleted
directories). `sorted` on `Path` compares path strings, hence names
lexicographically here; `dirs[:-history]` is empty when `history = 0`. -/
def clean_bench_dirs (subdirs : List String) (history : Nat) : List String × List String :=
  let dirs := List.insertionSort str_le (subdirs.filter startsWithDigit19)
  let deleted := if history = 0 then [] else dirs.take (dirs.length - history)
  let kept := if history = 0 then dirs else dirs.drop (dirs.length - history)
  if "dev" ∈ subdirs then (kept ++ ["dev"], deleted) else (kept, deleted)

/-- The per-snapshot sections of `_gen_markdown`, in the order they are
emitted: one section per directory of `dirs`, iterated in reverse. -/
def gen_markdown_sections (dirs : List String) (render : String → String) : List String :=
  (dirs.reverse).map render

/-- Embedding of `_gen_markdown`: the full document string. -/
def gen_markdown (dirs : List String) (render : String → String) : String :=
  "# Benchmarks\n" ++ String.intercalate "\n" (gen_markdown_sections dirs render) ++ "\n"

/-- A filesystem path as its list of components. -/
abbrev FsPath := List String

/-- The renaming applied by `_rename_bench_reports` to one path: a file named
`history.html` is renamed (in place) to `index.html`. -/
def rename_report (p : FsPath) : FsPath :=
  if p.getLast? = some "history.html" then p.dropLast ++ ["index.html"] else p

/-- Is `dir` a proper ancestor prefix of path `p` (the paths the recursive
glob `dir_.glob("**/history.html")` ranges over). -/
def properlyUnder (dir p : FsPath) : Bool :=
  decide (dir.length < p.length) && dir.isPrefixOf p

/-- Embedding of `_rename_bench_reports` at the level of the set of file
paths on disk: every `history.html` under one of `dirs` becomes
`index.html`; an existing sibling `index.html` is overwritten (set image). -/
def rename_bench_reports (dirs : List FsPath) (files : Finset FsPath) : Finset FsPath :=
  files.image (fun p => if dirs.any (fun d => properlyUnder d p) then rename_report p else p)

/-- Embedding of `push_branch` from `actions/utils.py`, parametrized by the
outcome `pushRes` of `porcelain.push` per branch name. Returns the Python
return value (`unit`, i.e. `None`) or the propagated exception, paired with
the list of branches created as a fallback. -/
def push_branch (pushRes : String → Except String Unit) (branch branch_alt : String) :
    Except String Unit × List String :=
  match pushRes branch with
  | Except.ok _ => (Except.ok (), [])
  | Except.error err =>
    if branch_alt ≠ "" then (pushRes branch_alt, [branch_alt])
    else (Except.error err, [])

/-- Embedding of `_git_push_gh_pages`: commit, name the branch
`gh-pages_{pr_number}_{timestamp}`, create it, push it via `push_branch`
(with no alternative), and return the branch name. -/
def git_push_gh_pages (pushRes : String → Except String Unit) (pr_number timestamp : String) :
    Except String String × List String :=
  let branch := "gh-pages_" ++ pr_number ++ "_" ++ timestamp
  let r := push_branch pushRes branch ""
  (r.1.map (fun _ => branch), r.2)

/-- Embedding of `gen_temp_branch` from `actions/utils.py`. `random.sample`
is modelled by taking the first `nrand` elements of an arbitrary `shuffle`
of the character list (`sample` draws without replacement); it raises
`ValueError` (`none`) when `nrand` exceeds the population size. The default
pool `range(10)` is stringified digit by digit, giving `default_digits`. -/
def gen_temp_branch (pre : String) (chars : List Char) (nrand : Nat)
    (shuffle : List Char → List Char) : Option String :=
  if nrand ≤ chars.length then some (pre ++ String.mk ((shuffle chars).take nrand)) else none

/-- The default sampling pool of `gen_temp_branch`: `str(c)` for `c` in
`range(10)`. -/
def default_digits : List Char := ['0', '1', '2', '3', '4', '5', '6', '7', '8', '9']

/-!  Helper lemmas. -/

lemma lexLe_total (as bs : List Char) : lexLe as bs = true ∨ lexLe bs as = true := by
  induction as generalizing bs with
  | nil => left; rfl
  | cons a as ih =>
    cases bs with
    | nil => right; rfl
    | cons b bs =>
      by_cases h1 : a.toNat < b.toNat
      · left; simp [lexLe, h1]
      · by_cases h2 : b.toNat < a.toNat
        · right; simp [lexLe, h2]
        · rcases ih bs with h | h
          · left; simp [lexLe, h1, h2, h]
          · right; simp [lexLe, h1, h2, h]

lemma lexLe_trans {as bs cs : List Char} (h1 : lexLe as bs = true)
    (h2 : lexLe bs cs = true) : lexLe as cs = true := by
  induction as generalizing bs cs with
  | nil => rfl
  | cons a as ih =>
    cases bs with
    | nil => simp [lexLe] at h1
    | cons b bs =>
      cases cs with
      | nil => simp [lexLe] at h2
      | cons c cs =>
        simp only [lexLe] at h1 h2 ⊢
        split_ifs at h1 h2 ⊢ <;>
          first
            | rfl
            | (exact ih h1 h2)
            | (exact Bool.noConfusion h1)
            | (exact Bool.noConfusion h2)
            | (exfalso; omega)

instance : IsTotal String str_le := ⟨fun a b => lexLe_total a.data b.data⟩

instance : IsTrans String str_le := ⟨fun _ _ _ => lexLe_trans⟩

lemma pyAbs_eq_abs (q : ℚ) : pyAbs q = |q| := by
  unfold pyAbs
  rcases lt_or_le q 0 with h | h
  · rw [if_pos h, abs_of_neg h]
  · rw [if_neg (not_lt.mpr h), abs_of_nonneg h]

lemma filter_orderedInsert {α : Type} (r : α → α → Prop) [DecidableRel r]
    (p : α → Bool) (a : α)
    (hpa : ∀ b, p a = true → ¬ r a b → p b = false) :
    ∀ l : List α, (List.orderedInsert r a l).filter p =
      if p a then a :: l.filter p else l.filter p := by
  intro l
  induction l with
  | nil => cases h : p a <;> simp [List.orderedInsert, List.filter_cons, h]
  | cons b t ih =>
    by_cases hr : r a b
    · simp [List.orderedInsert, if_pos hr, List.filter_cons]
    · simp only [List.orderedInsert, if_neg hr, List.filter_cons, ih]
      cases h : p a with
      | true =>
        have hb : p b = false := hpa b h hr
        simp [h, hb]
      | false => cases hb : p b <;> simp [h, hb]

lemma filter_insertionSort {α : Type} (r : α → α → Prop) [DecidableRel r]
    (p : α → Bool)
    (hp : ∀ a b, p a = true → ¬ r a b → p b = false) :
    ∀ l : List α, (List.insertionSort r l).filter p = l.filter p := by
  intro l
  induction l with
  | nil => rfl
  | cons a t ih =>
    simp only [List.insertionSort]
    rw [filter_orderedInsert r p a (hp a), ih]
    cases h : p a with
    | false => simp [List.filter, h]
    | true => simp [List.filter, h]

lemma rename_report_idem (p : FsPath) : rename_report (rename_report p) = rename_report p := by
  unfold rename_report
  by_cases h : p.getLast? = some "history.html"
  · rw [if_pos h, if_neg]
    rw [List.getLast?_concat]
    intro hc
    simp at hc
  · rw [if_neg h, if_neg h]

/-!  Claim theorems. -/

/-- C5: for every triple of bound strings whose normalization (the code's
`strip("%")` then `strip()`, i.e. stripping the trailing "%" and whitespace)
parses as a float, `_significance` classifies by exactly the documented
rule: neutral when `abs(middle) < 1`; else improvement when both outer
bounds are negative; else regression when both are positive; else neutral;
the rendering maps neutral to black, improvement to green and regression to
red, and the four concrete instances of the spec hold. -/
theorem significance_classification (l m u : String) (lv mv uv : ℚ)
    (hl : reg_value l = some lv) (hm : reg_value m = some mv)
    (hu : reg_value u = some uv) :
    ((|mv| < 1 → significance l m u = some 0) ∧
     (1 ≤ |mv| → lv < 0 → uv < 0 → significance l m u = some (-1)) ∧
     (1 ≤ |mv| → lv > 0 → uv > 0 → significance l m u = some 1) ∧
     (1 ≤ |mv| → ¬(lv < 0 ∧ uv < 0) → ¬(lv > 0 ∧ uv > 0) →
       significance l m u = some 0)) ∧
    (sig_color 0 = "black" ∧ sig_color (-1) = "green" ∧ sig_color 1 = "red") ∧
    (significance "-5%" "-3%" "-1%" = some (-1) ∧
     significance "1%" "3%" "5%" = some 1 ∧
     significance "-0.5%" "0.3%" "0.9%" = some 0 ∧
     significance "-1%" "2%" "4%" = some 0) := by
  have key : significance l m u =
      some (if pyAbs mv < 1 then 0 else if lv < 0 ∧ uv < 0 then -1
        else if lv > 0 ∧ uv > 0 then 1 else 0) := by
    simp [significance, hl, hm, hu]
  refine ⟨⟨?_, ?_, ?_, ?_⟩, ⟨by decide, by decide, by decide⟩,
    by decide, by decide, by decide, by decide⟩
  · intro h
    rw [key, if_pos (by rw [pyAbs_eq_abs]; exact h)]
  · intro h h1 h2
    rw [key, if_neg (by rw [pyAbs_eq_abs]; exact not_lt.mpr h), if_pos ⟨h1, h2⟩]
  · intro h h1 h2
    rw [key, if_neg (by rw [pyAbs_eq_abs]; exact not_lt.mpr h),
      if_neg (fun hc => absurd hc.1 (not_lt.mpr (le_of_lt h1))), if_pos ⟨h1, h2⟩]
  · intro h h1 h2
    rw [key, if_neg (by rw [pyAbs_eq_abs]; exact not_lt.mpr h), if_neg h1, if_neg h2]

/-- C5 witness: the theorem applied at the concrete triple ("-5%","-3%","-1%"),
whose bounds parse to -5, -3 and -1. -/
theorem significance_classification_witness :
    ((|(-3 : ℚ)| < 1 → significance "-5%" "-3%" "-1%" = some 0) ∧
     (1 ≤ |(-3 : ℚ)| → (-5 : ℚ) < 0 → (-1 : ℚ) < 0 →
       significance "-5%" "-3%" "-1%" = some (-1)) ∧
     (1 ≤ |(-3 : ℚ)| → (-5 : ℚ) > 0 → (-1 : ℚ) > 0 →
       significance "-5%" "-3%" "-1%" = some 1) ∧
     (1 ≤ |(-3 : ℚ)| → ¬((-5 : ℚ) < 0 ∧ (-1 : ℚ) < 0) → ¬((-5 : ℚ) > 0 ∧ (-1 : ℚ) > 0) →
       significance "-5%" "-3%" "-1%" = some 0)) ∧
    (sig_color 0 = "black" ∧ sig_color (-1) = "green" ∧ sig_color 1 = "red") ∧
    (significance "-5%" "-3%" "-1%" = some (-1) ∧
     significance "1%" "3%" "5%" = some 1 ∧
     significance "-0.5%" "0.3%" "0.9%" = some 0 ∧
     significance "-1%" "2%" "4%" = some 0) :=
  significance_classification "-5%" "-3%" "-1%" (-5) (-3) (-1)
    (by decide) (by decide) (by decide)

/-- C6: a fragment none of whose lines contains the marker line parses to
the neutral triple ("0","0","0"), which classifies as neutral; and a bound
line with no ">" delimiter, or with no "<" after the first ">", yields the
default bound "0". -/
theorem parse_metric_ci_degraded_defaults (lines : List String)
    (line1 line2 : String) (i : Nat)
    (hmk : ∀ s ∈ lines, line_contains_marker s = false)
    (h1 : '>' ∉ line1.data)
    (h2 : line2.data.findIdx? (fun c => c == '>') = some i)
    (h3 : '<' ∉ line2.data.drop (i + 1)) :
    parse_metric_ci lines = some ("0", "0", "0") ∧
    significance "0" "0" "0" = some 0 ∧
    extract_value_from_line line1 = "0" ∧
    extract_value_from_line line2 = "0" := by
  refine ⟨?_, by decide, ?_, ?_⟩
  · have hfs : find_start_line lines = none := by
      rw [find_start_line, List.findIdx?_eq_none_iff]
      exact hmk
    rw [parse_metric_ci, hfs]
  · have hnone : line1.data.findIdx? (fun c => c == '>') = none := by
      rw [List.findIdx?_eq_none_iff]
      intro c hc
      exact beq_eq_false_iff_ne.mpr (fun he => h1 (he ▸ hc))
    rw [extract_value_from_line, hnone]
  · have hnone : (line2.data.drop (i + 1)).findIdx? (fun c => c == '<') = none := by
      rw [List.findIdx?_eq_none_iff]
      intro c hc
      exact beq_eq_false_iff_ne.mpr (fun he => h3 (he ▸ hc))
    rw [extract_value_from_line, h2]
    simp only [hnone]

/-- C6 witness: the theorem applied at a concrete marker-free fragment and
concrete delimiter-free bound lines. -/
theorem parse_metric_ci_degraded_defaults_witness :
    parse_metric_ci ["hello", "world"] = some ("0", "0", "0") ∧
    significance "0" "0" "0" = some 0 ∧
    extract_value_from_line "no delimiters here" = "0" ∧
    extract_value_from_line "a>bc" = "0" :=
  parse_metric_ci_degraded_defaults ["hello", "world"] "no delimiters here" "a>bc" 1
    (by decide) (by decide) (by decide) (by decide)

/-- C7: the claim that `_parse_metric_ci` never raises on any fragment
content fails: when the marker line is among the last three lines the code
indexes past the end of `lines` and raises an `IndexError` (modelled by
`none`); here evaluated on the one-line fragment consisting of exactly the
marker line. -/
theorem parse_metric_ci_marker_at_end :
    parse_metric_ci ["Change in Value:"] = none := by decide

/-- C1 counterexample: two fragments with middle values 1% and 2%. The
claim orders ascending by middle (the 1% fragment first); `_sort_cips`
sorts by the negated middle, so the 2% fragment comes first. -/
theorem sort_cips_counterexample :
    sort_cips [(("0%", "1%", "2%"), "a"), (("0%", "2%", "3%"), "b")] =
      some [(("0%", "2%", "3%"), "b"), (("0%", "1%", "2%"), "a")] ∧
    mid_val (("0%", "1%", "2%"), "a") < mid_val (("0%", "2%", "3%"), "b") :=
  ⟨by decide, by decide⟩

/-- C1 amended: when every middle bound parses, `_sort_cips` returns a
permutation of its input ordered descending by the numeric middle value
(most positive, i.e. most regressed, first: `cip_le a b` is
`mid_val b ≤ mid_val a`), and the sort is stable: the fragments with any
given middle value `q` keep their input order. -/
theorem sort_cips_desc_stable (cips out : List CIP) (q : ℚ)
    (h : sort_cips cips = some out) :
    out.Perm cips ∧
    List.Sorted cip_le out ∧
    out.filter (fun c => decide (mid_val c = q)) =
      cips.filter (fun c => decide (mid_val c = q)) := by
  rw [sort_cips] at h
  split_ifs at h with hg
  injection h with h
  subst h
  refine ⟨List.perm_insertionSort cip_le cips, List.sorted_insertionSort cip_le cips, ?_⟩
  apply filter_insertionSort
  intro a b hpa hr
  have ha : mid_val a = q := of_decide_eq_true hpa
  have hab : mid_val a < mid_val b := not_le.mp hr
  exact decide_eq_false (ne_of_gt (ha ▸ hab))

/-- C1 witness: the amended theorem applied at the two-fragment input of the
counterexample, with q = 1. -/
theorem sort_cips_desc_stable_witness :
    ([(("0%", "2%", "3%"), "b"), (("0%", "1%", "2%"), "a")] : List CIP).Perm
      [(("0%", "1%", "2%"), "a"), (("0%", "2%", "3%"), "b")] ∧
    List.Sorted cip_le [(("0%", "2%", "3%"), "b"), (("0%", "1%", "2%"), "a")] ∧
    ([(("0%", "2%", "3%"), "b"), (("0%", "1%", "2%"), "a")] : List CIP).filter
        (fun c => decide (mid_val c = 1)) =
      ([(("0%", "1%", "2%"), "a"), (("0%", "2%", "3%"), "b")] : List CIP).filter
        (fun c => decide (mid_val c = 1)) :=
  sort_cips_desc_stable [(("0%", "1%", "2%"), "a"), (("0%", "2%", "3%"), "b")]
    [(("0%", "2%", "3%"), "b"), (("0%", "1%", "2%"), "a")] 1 (by decide)

lemma clean_bench_dirs_fst (subdirs : List String) (history : Nat) :
    (clean_bench_dirs subdirs history).1 =
      (if history = 0 then List.insertionSort str_le (subdirs.filter startsWithDigit19)
       else (List.insertionSort str_le (subdirs.filter startsWithDigit19)).drop
         ((List.insertionSort str_le (subdirs.filter startsWithDigit19)).length - history)) ++
      (if "dev" ∈ subdirs then ["dev"] else []) := by
  rw [clean_bench_dirs]
  by_cases hdev : "dev" ∈ subdirs <;> by_cases h0 : history = 0 <;> simp [hdev, h0]

lemma clean_bench_dirs_snd (subdirs : List String) (history : Nat) :
    (clean_bench_dirs subdirs history).2 =
      if history = 0 then []
      else (List.insertionSort str_le (subdirs.filter startsWithDigit19)).take
        ((List.insertionSort str_le (subdirs.filter startsWithDigit19)).length - history) := by
  rw [clean_bench_dirs]
  by_cases hdev : "dev" ∈ subdirs <;> by_cases h0 : history = 0 <;> simp [hdev, h0]

/-- C2 counterexample: snapshot directories named "10" and "2" with
retention 1: numerically, 10 is the most recent and must be kept, but the
code sorts path strings lexicographically ("10" before "2"), so it keeps
"2" and deletes "10". -/
theorem clean_bench_dirs_counterexample :
    clean_bench_dirs ["10", "2"] 1 = (["2"], ["10"]) := by decide

/-- C2 amended: `_clean_bench_dirs` sorts the `[1-9]*`-matching subdirectory
names ascending lexicographically (not numerically) — the sort output is
lex-sorted and a permutation of the matching names — then the deleted
directories are exactly all but the last `history` of that lexicographic
order (its take), and the returned list is exactly those last `history`
(its drop, of length min(history, count)) with the baseline "dev" appended
last when present; "dev" is never deleted; and on labels 1,2,3,4 (where
the lexicographic and numeric orders agree) with retention 2 it returns
[3,4,dev] after deleting 1 and 2. -/
theorem clean_bench_dirs_spec (subdirs : List String) (history : Nat)
    (hh : history ≠ 0) :
    List.Sorted str_le (List.insertionSort str_le (subdirs.filter startsWithDigit19)) ∧
    (List.insertionSort str_le (subdirs.filter startsWithDigit19)).Perm
      (subdirs.filter startsWithDigit19) ∧
    (clean_bench_dirs subdirs history).2 =
      (List.insertionSort str_le (subdirs.filter startsWithDigit19)).take
        ((List.insertionSort str_le (subdirs.filter startsWithDigit19)).length - history) ∧
    (clean_bench_dirs subdirs history).1 =
      (List.insertionSort str_le (subdirs.filter startsWithDigit19)).drop
        ((List.insertionSort str_le (subdirs.filter startsWithDigit19)).length - history) ++
      (if "dev" ∈ subdirs then ["dev"] else []) ∧
    ((List.insertionSort str_le (subdirs.filter startsWithDigit19)).drop
        ((List.insertionSort str_le (subdirs.filter startsWithDigit19)).length -
          history)).length =
      min history (List.insertionSort str_le (subdirs.filter startsWithDigit19)).length ∧
    "dev" ∉ (clean_bench_dirs subdirs history).2 ∧
    ("dev" ∈ subdirs → ((clean_bench_dirs subdirs history).1).getLast? = some "dev") ∧
    clean_bench_dirs ["1", "2", "3", "4", "dev"] 2 = (["3", "4", "dev"], ["1", "2"]) := by
  refine ⟨List.sorted_insertionSort str_le _, List.perm_insertionSort str_le _,
    ?_, ?_, ?_, ?_, ?_, by decide⟩
  · rw [clean_bench_dirs_snd, if_neg hh]
  · rw [clean_bench_dirs_fst, if_neg hh]
  · rw [List.length_drop]
    omega
  · intro hmem
    rw [clean_bench_dirs_snd, if_neg hh] at hmem
    have hd : ("dev" : String) ∈ List.insertionSort str_le (subdirs.filter startsWithDigit19) :=
      List.mem_of_mem_take hmem
    have := (List.mem_filter.mp ((List.mem_insertionSort str_le).mp hd)).2
    simp [startsWithDigit19] at this
  · intro hdev
    rw [clean_bench_dirs_fst, if_pos hdev]
    exact List.getLast?_concat _

/-- C2 witness: the amended theorem applied at the concrete labels
1,2,3,4 with baseline dev and retention 2. -/
theorem clean_bench_dirs_spec_witness :
    List.Sorted str_le
      (List.insertionSort str_le (List.filter startsWithDigit19 ["1", "2", "3", "4", "dev"])) ∧
    (List.insertionSort str_le (List.filter startsWithDigit19 ["1", "2", "3", "4", "dev"])).Perm
      (List.filter startsWithDigit19 ["1", "2", "3", "4", "dev"]) ∧
    (clean_bench_dirs ["1", "2", "3", "4", "dev"] 2).2 =
      (List.insertionSort str_le (List.filter startsWithDigit19 ["1", "2", "3", "4", "dev"])).take
        ((List.insertionSort str_le
          (List.filter startsWithDigit19 ["1", "2", "3", "4", "dev"])).length - 2) ∧
    (clean_bench_dirs ["1", "2", "3", "4", "dev"] 2).1 =
      (List.insertionSort str_le (List.filter startsWithDigit19 ["1", "2", "3", "4", "dev"])).drop
        ((List.insertionSort str_le
          (List.filter startsWithDigit19 ["1", "2", "3", "4", "dev"])).length - 2) ++
      (if "dev" ∈ ["1", "2", "3", "4", "dev"] then ["dev"] else []) ∧
    ((List.insertionSort str_le (List.filter startsWithDigit19 ["1", "2", "3", "4", "dev"])).drop
        ((List.insertionSort str_le
          (List.filter startsWithDigit19 ["1", "2", "3", "4", "dev"])).length - 2)).length =
      min 2 (List.insertionSort str_le
        (List.filter startsWithDigit19 ["1", "2", "3", "4", "dev"])).length ∧
    "dev" ∉ (clean_bench_dirs ["1", "2", "3", "4", "dev"] 2).2 ∧
    ("dev" ∈ ["1", "2", "3", "4", "dev"] →
      ((clean_bench_dirs ["1", "2", "3", "4", "dev"] 2).1).getLast? = some "dev") ∧
    clean_bench_dirs ["1", "2", "3", "4", "dev"] 2 = (["3", "4", "dev"], ["1", "2"]) :=
  clean_bench_dirs_spec ["1", "2", "3", "4", "dev"] 2 (by decide)

/-- C3 counterexample: with the selected directories [3, 4, dev] the
rendered sections come out [dev, 4, 3]: the baseline section is first, not
last, in the emitted document. -/
theorem gen_markdown_sections_counterexample :
    gen_markdown_sections (clean_bench_dirs ["1", "2", "3", "4", "dev"] 2).1 (fun s => s) =
      ["dev", "4", "3"] ∧
    (gen_markdown_sections (clean_bench_dirs ["1", "2", "3", "4", "dev"] 2).1
        (fun s => s)).getLast? ≠ some "dev" :=
  ⟨by decide, by decide⟩

/-- C3 amended: `_gen_markdown` renders the selected directories in reverse
selection order, so when the baseline dev exists its section comes first,
followed by the retained numeric snapshots most recent first. -/
theorem gen_markdown_sections_spec (subdirs : List String) (history : Nat)
    (render : String → String) (hdev : "dev" ∈ subdirs) :
    gen_markdown_sections (clean_bench_dirs subdirs history).1 render =
      render "dev" ::
        (((clean_bench_dirs subdirs history).1.dropLast).reverse).map render := by
  rw [clean_bench_dirs_fst, if_pos hdev]
  simp [gen_markdown_sections, List.reverse_append, List.dropLast_concat]

/-- C3 witness: the amended theorem at the concrete selection
[3, 4, dev]. -/
theorem gen_markdown_sections_spec_witness :
    gen_markdown_sections (clean_bench_dirs ["1", "2", "3", "4", "dev"] 2).1
        (fun s => String.append "sec " s) =
      String.append "sec " "dev" ::
        (((clean_bench_dirs ["1", "2", "3", "4", "dev"] 2).1.dropLast).reverse).map
          (fun s => String.append "sec " s) :=
  gen_markdown_sections_spec ["1", "2", "3", "4", "dev"] 2
    (fun s => String.append "sec " s) (by decide)

/-- C4 counterexample: with every push rejected, `push_branch` of primary
"main" and caller-supplied alternative "alt" propagates exactly the
alternative push's exception (naming only "alt", not both branches), and
with pushes succeeding it returns unit, never the used branch name; the
alternative branch name is used verbatim, no random suffix is generated. -/
theorem push_branch_counterexample :
    push_branch (fun b => Except.error ("rejected " ++ b)) "main" "alt" =
      (Except.error "rejected alt", ["alt"]) ∧
    push_branch (fun _ => Except.ok ()) "main" "alt" = (Except.ok (), []) :=
  ⟨rfl, rfl⟩

/-- C4 amended: `push_branch` returns Python None (unit), not a branch
name. If the primary push succeeds, nothing else happens and no fallback
branch is created. On primary rejection: with an empty alternative the
original exception is re-raised unchanged; with a nonempty caller-supplied
alternative name, exactly that branch is created and pushed and the result
is whatever the alternative push produces (its exception names only the
alternative). No random-suffix fallback name is generated inside
`push_branch`. -/
theorem push_branch_spec (pushRes pushOk : String → Except String Unit)
    (branch alt e : String)
    (hok : pushOk branch = Except.ok ())
    (hfail : pushRes branch = Except.error e)
    (halt : alt ≠ "") :
    push_branch pushOk branch alt = (Except.ok (), []) ∧
    push_branch pushRes branch "" = (Except.error e, []) ∧
    push_branch pushRes branch alt = (pushRes alt, [alt]) := by
  refine ⟨?_, ?_, ?_⟩
  · simp [push_branch, hok]
  · simp [push_branch, hfail]
  · simp [push_branch, hfail, halt]

/-- C4 witness: the amended theorem at the repository's own call shape
(primary gh-pages, date-suffixed alternative). -/
theorem push_branch_spec_witness :
    push_branch (fun _ => Except.ok ()) "gh-pages" "gh-pages_prof_20231001" =
      (Except.ok (), []) ∧
    push_branch (fun b => Except.error b) "gh-pages" "" =
      (Except.error "gh-pages", []) ∧
    push_branch (fun b => Except.error b) "gh-pages" "gh-pages_prof_20231001" =
      (Except.error "gh-pages_prof_20231001", ["gh-pages_prof_20231001"]) :=
  push_branch_spec (fun b => Except.error b) (fun _ => Except.ok ())
    "gh-pages" "gh-pages_prof_20231001" "gh-pages" rfl rfl (by decide)

/-- C8: renaming every history.html under the selected snapshot directories
to index.html is idempotent on the set of file paths: a second run changes
nothing. -/
theorem rename_bench_reports_idempotent (dirs : List FsPath) (files : Finset FsPath) :
    rename_bench_reports dirs (rename_bench_reports dirs files) =
      rename_bench_reports dirs files := by
  unfold rename_bench_reports
  rw [Finset.image_image]
  congr 1
  funext p
  simp only [Function.comp_apply]
  by_cases hc : dirs.any (fun d => properlyUnder d p) = true
  · rw [if_pos hc]
    by_cases hc2 : dirs.any (fun d => properlyUnder d (rename_report p)) = true
    · rw [if_pos hc2, rename_report_idem]
    · rw [if_neg hc2]
  · simp only [if_neg hc]

/-- C9: the pipeline's push step `_git_push_gh_pages` calls `push_branch`
with no alternative branch: it creates no fallback branch, returns exactly
the name gh-pages_{pr_number}_{timestamp} when the push succeeds, and
propagates the original push exception unchanged when it fails. -/
theorem git_push_gh_pages_spec (pushRes : String → Except String Unit)
    (pr_number timestamp : String) :
    git_push_gh_pages pushRes pr_number timestamp =
      (Except.map (fun _ => "gh-pages_" ++ pr_number ++ "_" ++ timestamp)
        (pushRes ("gh-pages_" ++ pr_number ++ "_" ++ timestamp)), []) := by
  cases h : pushRes ("gh-pages_" ++ pr_number ++ "_" ++ timestamp) with
  | ok u => simp [git_push_gh_pages, push_branch, h, Except.map]
  | error e => simp [git_push_gh_pages, push_branch, h, Except.map]

/-- C10: with `random.sample` modelled by an arbitrary permutation,
`gen_temp_branch` returns the prefix followed by exactly nrand distinct
characters drawn from the pool whenever nrand is at most the pool size;
with the default pool of the ten digits and nrand = 10 the suffix is a
permutation of the digits 0-9; and it raises ValueError (none) when nrand
exceeds the pool size. -/
theorem gen_temp_branch_spec (pre : String) (chars : List Char) (nrand : Nat)
    (shuffle : List Char → List Char)
    (hperm : (shuffle chars).Perm chars) (hnodup : chars.Nodup) :
    (nrand ≤ chars.length →
      ∃ suf : List Char,
        gen_temp_branch pre chars nrand shuffle = some (pre ++ String.mk suf) ∧
        suf.length = nrand ∧ suf.Nodup ∧ ∀ c ∈ suf, c ∈ chars) ∧
    (chars.length < nrand → gen_temp_branch pre chars nrand shuffle = none) ∧
    (chars = default_digits → nrand = 10 →
      ∃ suf : List Char,
        gen_temp_branch pre chars nrand shuffle = some (pre ++ String.mk suf) ∧
        suf.Perm default_digits) := by
  refine ⟨?_, ?_, ?_⟩
  · intro hle
    refine ⟨(shuffle chars).take nrand, ?_, ?_, ?_, ?_⟩
    · rw [gen_temp_branch, if_pos hle]
    · rw [List.length_take, hperm.length_eq, Nat.min_eq_left hle]
    · exact List.Nodup.sublist (List.take_sublist _ _) ((hperm.nodup_iff).mpr hnodup)
    · intro c hc
      exact hperm.subset (List.mem_of_mem_take hc)
  · intro hlt
    rw [gen_temp_branch, if_neg (not_le.mpr hlt)]
  · intro hch hn
    subst hch
    subst hn
    refine ⟨shuffle default_digits, ?_, hperm⟩
    rw [gen_temp_branch, if_pos (by decide),
      List.take_of_length_le (le_of_eq (by rw [hperm.length_eq]; rfl))]

/-- C10 witness: the theorem applied with the default prefix, pool and
suffix length, and the identity shuffle. -/
theorem gen_temp_branch_spec_witness :
    (10 ≤ default_digits.length →
      ∃ suf : List Char,
        gen_temp_branch "_branch_" default_digits 10 (fun l => l) =
          some ("_branch_" ++ String.mk suf) ∧
        suf.length = 10 ∧ suf.Nodup ∧ ∀ c ∈ suf, c ∈ default_digits) ∧
    (default_digits.length < 10 →
      gen_temp_branch "_branch_" default_digits 10 (fun l => l) = none) ∧
    (default_digits = default_digits → 10 = 10 →
      ∃ suf : List Char,
        gen_temp_branch "_branch_" default_digits 10 (fun l => l) =
          some ("_branch_" ++ String.mk suf) ∧
        suf.Perm default_digits) :=
  gen_temp_branch_spec "_branch_" default_digits 10 (fun l => l)
    (List.Perm.refl _) (by decide)

